import Mathlib

/-!
Verification of the realtime collaboration server of `intelligent-canvas`
(`src/server/src/index.ts`, the socket.io server with shared history).

The server keeps, per canvas room, an authoritative `RoomState` consisting of
a history of full document snapshots and a cursor (`currentIndex`) into it.
Client messages (`join-canvas`, `client-create-element`,
`client-delete-element`, `client-undo`, `client-redo`) mutate this state and
emit socket.io messages.  We embed the handlers as a pure step function
`step : ServerState → Event → ServerState × List Effect`; socket.io emissions
become explicit `Effect` values:
- `Effect.stateUpdate` models `io.to(room).emit('server-state-update', …)`,
  one payload delivered identically to every member of the room, the
  originator included;
- `Effect.directUpdate` models `socket.emit('server-state-update', …)` sent
  to the joining socket alone;
- `Effect.usersUpdate` models `io.to(room).emit('canvas-users', …)`;
- `Effect.save` models a write to the persistence store issued by the
  realtime server.  No handler in `index.ts` performs such a write, so no
  step ever emits it; the constructor exists so that this absence is a
  provable statement.

JavaScript `Map`s become functions `String → Option _`, the per-socket
closure variable `currentCanvas` becomes a map from socket id to
`Option String`, and the `Set` of users in a room becomes a duplicate-free
list.  The `JSON.parse(JSON.stringify(…))` deep copy in `handleEdit` exists
only to defeat aliasing; under the value semantics of the embedding it is the
identity.  The `uuid()` call and the document fetched over HTTP on a cold
join are external inputs, so they appear as payloads of the corresponding
events.
-/

/-- An element stored in a document.  At runtime the server treats line,
shape and text elements uniformly: the create handler spreads the client
payload and overwrites `id` and `userId` (TypeScript casts such as
`as LineData` are erased).  `rest` stands for the type-specific fields the
handlers never touch (points, color, text, …). -/
structure Element where
  id : String
  userId : String
  createdAt : Int
  rest : String
  deriving DecidableEq, Repr

/-- `CanvasData` from `index.ts`: three ordered collections of elements. -/
structure CanvasData where
  lines : List Element
  shapes : List Element
  texts : List Element
  deriving DecidableEq, Repr

/-- The empty document used to seed a room when nothing is loaded. -/
def emptyCanvas : CanvasData := ⟨[], [], []⟩

/-- `RoomState` from `index.ts`: the shared history and the cursor. -/
structure RoomState where
  history : List CanvasData
  currentIndex : Nat
  deriving DecidableEq, Repr

/-- The whole mutable state of the server process: the `canvasState` map,
the `canvasUsers` map, and each socket's `currentCanvas` closure variable. -/
structure ServerState where
  canvasState : String → Option RoomState
  canvasUsers : String → Option (List String)
  currentCanvas : String → Option String

/-- Point update of a string-keyed map. -/
def mapSet {α : Type} (f : String → Option α) (k : String) (v : Option α) :
    String → Option α :=
  fun k' => if k' == k then v else f k'

/-- State of the freshly started server: no rooms, no users, no sessions in
a room. -/
def initialServer : ServerState :=
  ⟨fun _ => none, fun _ => none, fun _ => none⟩

/-- Inbound client messages, tagged with the sending socket's id.  The
`initData` of a join is the document fetched from the web app when the room
is cold; the `u` of a create is the output of `uuid()`. -/
inductive Event where
  | join (sid canvasId : String) (initData : CanvasData)
  | createElement (sid canvasId type_ : String) (elementData : Element) (u : String)
  | deleteElement (sid canvasId elementId : String)
  | undo (sid canvasId : String)
  | redo (sid canvasId : String)
  deriving DecidableEq, Repr

/-- Outbound socket.io emissions (see the module docstring). -/
inductive Effect where
  | stateUpdate (canvasId : String) (elements : CanvasData) (canUndo canRedo : Bool)
  | directUpdate (sid : String) (elements : CanvasData) (canUndo canRedo : Bool)
  | usersUpdate (canvasId : String) (users : List String)
  | save (canvasId : String) (doc : CanvasData)
  deriving DecidableEq, Repr

/-- `roomState.history[roomState.currentIndex]`, the frame the room
currently shows. -/
def currentFrame (rs : RoomState) : CanvasData :=
  rs.history.getD rs.currentIndex emptyCanvas

/-- `updateAndBroadcast` from `index.ts`: emit the current frame together
with `canUndo = currentIndex > 0` and
`canRedo = currentIndex < history.length - 1` to the whole room. -/
def updateAndBroadcast (canvasId : String) (rs : RoomState) : Effect :=
  .stateUpdate canvasId (currentFrame rs)
    (decide (0 < rs.currentIndex))
    (decide (rs.currentIndex < rs.history.length - 1))

/-- `handleEdit` from `index.ts`: if the room has live state, deep-copy the
current frame, apply the edit, truncate the history above the cursor, append
the edited frame, point the cursor at it and broadcast; otherwise do
nothing. -/
def handleEdit (st : ServerState) (canvasId : String)
    (editFn : CanvasData → CanvasData) : ServerState × List Effect :=
  match st.canvasState canvasId with
  | none => (st, [])
  | some roomState =>
    let currentData := currentFrame roomState
    let updatedData := editFn currentData
    let newHistory := roomState.history.take (roomState.currentIndex + 1) ++ [updatedData]
    let rs' : RoomState := ⟨newHistory, newHistory.length - 1⟩
    ({ st with canvasState := mapSet st.canvasState canvasId (some rs') },
     [updateAndBroadcast canvasId rs'])

/-- The edit function of `client-create-element`: build the element by
spreading the client payload and then overwriting `id` with
`type-uuid` and `userId` with the socket id, and append it to the
collection selected by the type tag (an unknown tag appends nowhere). -/
def createEdit (sid type_ : String) (elementData : Element) (u : String)
    (currentData : CanvasData) : CanvasData :=
  let element : Element :=
    { elementData with id := type_ ++ "-" ++ u, userId := sid }
  if type_ == "line" then
    { currentData with lines := currentData.lines ++ [element] }
  else if type_ == "shape" then
    { currentData with shapes := currentData.shapes ++ [element] }
  else if type_ == "text" then
    { currentData with texts := currentData.texts ++ [element] }
  else currentData

/-- The edit function of `client-delete-element`: filter the id out of all
three collections. -/
def deleteEdit (elementId : String) (currentData : CanvasData) : CanvasData :=
  { lines := currentData.lines.filter (fun l => l.id != elementId)
    shapes := currentData.shapes.filter (fun s => s.id != elementId)
    texts := currentData.texts.filter (fun t => t.id != elementId) }

/-- The leave-previous-canvas block at the top of the `join-canvas`
handler: remove the socket from its previous room's user set; when it was
the last user, drop the user entry and the room state. -/
def leavePrevious (st : ServerState) (sid : String) : ServerState :=
  match st.currentCanvas sid with
  | none => st
  | some prev =>
    match st.canvasUsers prev with
    | none => st
    | some users =>
      let users' := users.filter (fun x => x != sid)
      if users'.isEmpty then
        { st with
          canvasUsers := mapSet st.canvasUsers prev none
          canvasState := mapSet st.canvasState prev none }
      else
        { st with canvasUsers := mapSet st.canvasUsers prev (some users') }

/-- The `join-canvas` handler.  First leave the previous canvas if any,
then join the new room, create its state from the fetched document if it is
cold, send the current snapshot to the joiner alone and the user list to the
whole room. -/
def joinCanvas (st : ServerState) (sid canvasId : String)
    (initData : CanvasData) : ServerState × List Effect :=
  let st1 : ServerState := leavePrevious st sid
  let users0 := (st1.canvasUsers canvasId).getD []
  let users1 := if sid ∈ users0 then users0 else users0 ++ [sid]
  let st2 : ServerState :=
    { st1 with
      canvasUsers := mapSet st1.canvasUsers canvasId (some users1)
      currentCanvas := mapSet st1.currentCanvas sid (some canvasId) }
  let st3 : ServerState :=
    match st2.canvasState canvasId with
    | some _ => st2
    | none =>
      { st2 with
        canvasState := mapSet st2.canvasState canvasId (some ⟨[initData], 0⟩) }
  let rs := (st3.canvasState canvasId).getD ⟨[initData], 0⟩
  (st3,
   [.directUpdate sid (currentFrame rs)
      (decide (0 < rs.currentIndex))
      (decide (rs.currentIndex < rs.history.length - 1)),
    .usersUpdate canvasId users1])

/-- The `client-undo` handler: decrement the cursor and broadcast when
`currentIndex > 0`; otherwise leave everything unchanged and emit
nothing. -/
def clientUndo (st : ServerState) (canvasId : String) :
    ServerState × List Effect :=
  match st.canvasState canvasId with
  | none => (st, [])
  | some rs =>
    if 0 < rs.currentIndex then
      let rs' : RoomState := ⟨rs.history, rs.currentIndex - 1⟩
      ({ st with canvasState := mapSet st.canvasState canvasId (some rs') },
       [updateAndBroadcast canvasId rs'])
    else (st, [])

/-- The `client-redo` handler: increment the cursor and broadcast when
`currentIndex < history.length - 1`; otherwise leave everything unchanged
and emit nothing. -/
def clientRedo (st : ServerState) (canvasId : String) :
    ServerState × List Effect :=
  match st.canvasState canvasId with
  | none => (st, [])
  | some rs =>
    if rs.currentIndex < rs.history.length - 1 then
      let rs' : RoomState := ⟨rs.history, rs.currentIndex + 1⟩
      ({ st with canvasState := mapSet st.canvasState canvasId (some rs') },
       [updateAndBroadcast canvasId rs'])
    else (st, [])

/-- One dispatch of the socket.io event router.  Note that, exactly as in
`index.ts`, the four mutation handlers consult only `canvasState` — neither
`canvasUsers` nor the sender's `currentCanvas` is read. -/
def step (st : ServerState) (e : Event) : ServerState × List Effect :=
  match e with
  | .join sid canvasId initData => joinCanvas st sid canvasId initData
  | .createElement sid canvasId type_ elementData u =>
    handleEdit st canvasId (createEdit sid type_ elementData u)
  | .deleteElement _ canvasId elementId =>
    handleEdit st canvasId (deleteEdit elementId)
  | .undo _ canvasId => clientUndo st canvasId
  | .redo _ canvasId => clientRedo st canvasId

/-- The state after an event, ignoring the emissions. -/
def stepState (st : ServerState) (e : Event) : ServerState := (step st e).1

/-- The emissions of an event. -/
def stepEffects (st : ServerState) (e : Event) : List Effect := (step st e).2

/-- The server state reached from process start by a sequence of events. -/
def run (events : List Event) : ServerState :=
  events.foldl stepState initialServer

/-- All emissions produced while running a sequence of events from process
start. -/
def runEffects (events : List Event) : List Effect :=
  (events.foldl
    (fun acc e => (stepState acc.1 e, acc.2 ++ stepEffects acc.1 e))
    (initialServer, [])).2

/-- The room state produced by `handleEdit` on a live room: history above
the cursor truncated, the edited frame appended, the cursor pointing at
it. -/
def pushHistory (rs : RoomState) (d : CanvasData) : RoomState :=
  ⟨rs.history.take (rs.currentIndex + 1) ++ [d],
   (rs.history.take (rs.currentIndex + 1) ++ [d]).length - 1⟩

/-- Is this effect a `server-state-update` broadcast to the whole room? -/
def isStateUpdate : Effect → Bool
  | .stateUpdate _ _ _ _ => true
  | _ => false

/-- Is this effect a write to the persistence store? -/
def isSave : Effect → Bool
  | .save _ _ => true
  | _ => false

/-- The room a mutation message (create, delete, undo, redo) names; `none`
for a join. -/
def mutationOf : Event → Option String
  | .join _ _ _ => none
  | .createElement _ canvasId _ _ _ => some canvasId
  | .deleteElement _ canvasId _ => some canvasId
  | .undo _ canvasId => some canvasId
  | .redo _ canvasId => some canvasId

/-- Well-formedness of a `canvasState` map: in every live room the cursor
is a valid index into the history (hence the history is nonempty). -/
def MapWF (f : String → Option RoomState) : Prop :=
  ∀ r rs, f r = some rs → rs.currentIndex < rs.history.length

/-- Sample event: socket `A` joins room `r`, which loads empty. -/
def sampleJoin : Event := .join "A" "r" emptyCanvas

/-- Sample event: socket `A` deletes the (absent) element `x` in room
`r`. -/
def sampleDelete : Event := .deleteElement "A" "r" "x"

/-- A sample client payload for a create, carrying client-chosen `id`,
`userId` and `createdAt` fields. -/
def samplePayload : Element := ⟨"cli-id", "cli-user", 5, "stroke-data"⟩

/-- A second sample client payload whose `createdAt` is smaller than
`samplePayload`'s. -/
def samplePayload2 : Element := ⟨"cli-id2", "cli-user2", 3, "stroke-data2"⟩

/-- The server state with socket `A` alone in room `r` on an empty
document. -/
def joinedState : ServerState := run [sampleJoin]

/-- Statement of the history discipline of the four room operations on a
room whose state is `rs` (claim C4): a create or delete truncates the
history above the cursor, appends the newly computed frame and points the
cursor at it; undo and redo never change the history. -/
def HistoryDiscipline (st : ServerState) (r : String) (rs : RoomState)
    (sid t : String) (ed : Element) (u eid : String) : Prop :=
  ((stepState st (.createElement sid r t ed u)).canvasState r =
      some (pushHistory rs (createEdit sid t ed u (currentFrame rs)))) ∧
  ((stepState st (.deleteElement sid r eid)).canvasState r =
      some (pushHistory rs (deleteEdit eid (currentFrame rs)))) ∧
  (∀ rs₁, (stepState st (.undo sid r)).canvasState r = some rs₁ →
      rs₁.history = rs.history) ∧
  (∀ rs₂, (stepState st (.redo sid r)).canvasState r = some rs₂ →
      rs₂.history = rs.history)

/-- Statement of the undo/redo boundary behaviour on a room whose state is
`rs` (claim C8): undo decrements exactly when the cursor is positive, redo
increments exactly when the cursor is below the top, each followed by one
state-update broadcast; at the boundary nothing changes and nothing is
emitted. -/
def UndoRedoBoundary (st : ServerState) (sid r : String) (rs : RoomState) :
    Prop :=
  (0 < rs.currentIndex →
     (stepState st (.undo sid r)).canvasState r =
         some ⟨rs.history, rs.currentIndex - 1⟩ ∧
     stepEffects st (.undo sid r) =
         [updateAndBroadcast r ⟨rs.history, rs.currentIndex - 1⟩]) ∧
  (rs.currentIndex = 0 →
     stepState st (.undo sid r) = st ∧ stepEffects st (.undo sid r) = []) ∧
  (rs.currentIndex < rs.history.length - 1 →
     (stepState st (.redo sid r)).canvasState r =
         some ⟨rs.history, rs.currentIndex + 1⟩ ∧
     stepEffects st (.redo sid r) =
         [updateAndBroadcast r ⟨rs.history, rs.currentIndex + 1⟩]) ∧
  (¬ rs.currentIndex < rs.history.length - 1 →
     stepState st (.redo sid r) = st ∧ stepEffects st (.redo sid r) = [])

/-! ### Basic lemmas about the embedding -/

lemma mapSet_self {α : Type} (f : String → Option α) (k : String)
    (v : Option α) : mapSet f k v k = v := by
  simp [mapSet]

lemma handleEdit_some (st : ServerState) (canvasId : String)
    (editFn : CanvasData → CanvasData) (rs : RoomState)
    (h : st.canvasState canvasId = some rs) :
    handleEdit st canvasId editFn =
      ({ st with
          canvasState := mapSet st.canvasState canvasId
            (some (pushHistory rs (editFn (currentFrame rs)))) },
       [updateAndBroadcast canvasId
          (pushHistory rs (editFn (currentFrame rs)))]) := by
  simp [handleEdit, h, pushHistory]

lemma currentFrame_pushHistory (rs : RoomState) (d : CanvasData) :
    currentFrame (pushHistory rs d) = d := by
  unfold currentFrame pushHistory
  simp [List.getD_eq_getElem?_getD, List.getElem?_concat_length]

lemma pushHistory_currentIndex (rs : RoomState) (d : CanvasData)
    (hwf : rs.currentIndex < rs.history.length) :
    (pushHistory rs d).currentIndex = rs.currentIndex + 1 := by
  unfold pushHistory
  simp [List.length_take]
  omega

lemma pushHistory_history (rs : RoomState) (d : CanvasData) :
    (pushHistory rs d).history =
      rs.history.take (rs.currentIndex + 1) ++ [d] := rfl

lemma pushHistory_length (rs : RoomState) (d : CanvasData)
    (hwf : rs.currentIndex < rs.history.length) :
    (pushHistory rs d).history.length = rs.currentIndex + 2 := by
  unfold pushHistory
  simp [List.length_take]
  omega

lemma updateAndBroadcast_pushHistory (canvasId : String) (rs : RoomState)
    (d : CanvasData) (hwf : rs.currentIndex < rs.history.length) :
    updateAndBroadcast canvasId (pushHistory rs d) =
      .stateUpdate canvasId d true false := by
  unfold updateAndBroadcast
  rw [currentFrame_pushHistory]
  rw [pushHistory_currentIndex rs d hwf, pushHistory_length rs d hwf]
  simp

/-! ### The cursor-in-range invariant is preserved by every event -/

lemma mapWF_initial : MapWF initialServer.canvasState := by
  intro r rs h
  simp [initialServer] at h

lemma mapWF_update {f : String → Option RoomState} {k : String}
    {v : Option RoomState} (hf : MapWF f)
    (hv : ∀ rs, v = some rs → rs.currentIndex < rs.history.length) :
    MapWF (mapSet f k v) := by
  intro r rs h
  unfold mapSet at h
  by_cases hr : r == k
  · simp [hr] at h
    exact hv rs h
  · simp [hr] at h
    exact hf r rs h

lemma mapWF_leavePrevious (st : ServerState) (sid : String)
    (h : MapWF st.canvasState) :
    MapWF (leavePrevious st sid).canvasState := by
  unfold leavePrevious
  split
  · exact h
  · split
    · exact h
    · dsimp only
      split
      · exact mapWF_update h (fun rs hrs => by simp at hrs)
      · exact h

lemma joinCanvas_canvasState (st : ServerState) (sid canvasId : String)
    (initData : CanvasData) :
    (joinCanvas st sid canvasId initData).1.canvasState =
      match (leavePrevious st sid).canvasState canvasId with
      | some _ => (leavePrevious st sid).canvasState
      | none =>
        mapSet (leavePrevious st sid).canvasState canvasId
          (some ⟨[initData], 0⟩) := by
  unfold joinCanvas
  cases h : (leavePrevious st sid).canvasState canvasId <;> simp [h]

lemma mapWF_join (st : ServerState) (sid canvasId : String)
    (initData : CanvasData) (h : MapWF st.canvasState) :
    MapWF (joinCanvas st sid canvasId initData).1.canvasState := by
  rw [joinCanvas_canvasState]
  have h1 := mapWF_leavePrevious st sid h
  cases hc : (leavePrevious st sid).canvasState canvasId
  · exact mapWF_update h1 (by intro rs hrs; cases hrs; simp)
  · exact h1

lemma mapWF_handleEdit (st : ServerState) (canvasId : String)
    (editFn : CanvasData → CanvasData) (h : MapWF st.canvasState) :
    MapWF (handleEdit st canvasId editFn).1.canvasState := by
  cases hc : st.canvasState canvasId with
  | none =>
    unfold handleEdit
    rw [hc]
    exact h
  | some rs =>
    rw [handleEdit_some st canvasId editFn rs hc]
    refine mapWF_update h ?_
    intro rs' hrs'
    cases hrs'
    unfold pushHistory
    simp

lemma mapWF_undo (st : ServerState) (canvasId : String)
    (h : MapWF st.canvasState) :
    MapWF (clientUndo st canvasId).1.canvasState := by
  unfold clientUndo
  cases hc : st.canvasState canvasId with
  | none => exact h
  | some rs =>
    by_cases hg : 0 < rs.currentIndex
    · simp only [hg, if_true]
      refine mapWF_update h ?_
      intro rs' hrs'
      cases hrs'
      have := h canvasId rs hc
      simp
      omega
    · simp only [hg, if_false]
      exact h

lemma mapWF_redo (st : ServerState) (canvasId : String)
    (h : MapWF st.canvasState) :
    MapWF (clientRedo st canvasId).1.canvasState := by
  unfold clientRedo
  cases hc : st.canvasState canvasId with
  | none => exact h
  | some rs =>
    by_cases hg : rs.currentIndex < rs.history.length - 1
    · simp only [hg, if_true]
      refine mapWF_update h ?_
      intro rs' hrs'
      cases hrs'
      simp
      omega
    · simp only [hg, if_false]
      exact h

lemma mapWF_step (st : ServerState) (e : Event) (h : MapWF st.canvasState) :
    MapWF (stepState st e).canvasState := by
  cases e with
  | join sid canvasId initData => exact mapWF_join st sid canvasId initData h
  | createElement sid canvasId t ed u =>
    exact mapWF_handleEdit st canvasId (createEdit sid t ed u) h
  | deleteElement sid canvasId elementId =>
    exact mapWF_handleEdit st canvasId (deleteEdit elementId) h
  | undo sid canvasId => exact mapWF_undo st canvasId h
  | redo sid canvasId => exact mapWF_redo st canvasId h

lemma mapWF_foldl (events : List Event) :
    ∀ st : ServerState, MapWF st.canvasState →
      MapWF (events.foldl stepState st).canvasState := by
  induction events with
  | nil => intro st h; exact h
  | cons e rest ih =>
    intro st h
    exact ih (stepState st e) (mapWF_step st e h)

lemma mapWF_run (events : List Event) : MapWF (run events).canvasState :=
  mapWF_foldl events initialServer mapWF_initial

/-! ### Claim C1 — history bound -/

set_option maxRecDepth 10000

/-- C1, as stated, is false: the claimed bound `len(history) ≤ H_MAX`
(default `H_MAX = 100`) fails.  After a join and 100 mutations (deletes) in
room `r` the history holds 101 frames: no mutation ever drops `history[0]`
and no cursor decrement takes place. -/
theorem historyBound_counterexample :
    ((run (sampleJoin :: List.replicate 100 sampleDelete)).canvasState
        "r").map (fun rs => rs.history.length) = some 101 ∧
      ¬ (101 ≤ 100) := by
  constructor
  · decide
  · decide

/-- C1 (amended): for every sequence of operations (join, create, delete,
undo, redo) and every room with live state, `1 ≤ len(history)` holds; the
upper bound is not enforced — the server never truncates at `H_MAX`. -/
theorem history_length_lower_bound (events : List Event) (r : String)
    (rs : RoomState) (h : (run events).canvasState r = some rs) :
    1 ≤ rs.history.length := by
  have hwf := mapWF_run events r rs h
  omega

/-- Witness for `history_length_lower_bound` at a concrete run: after a
single join, room `r` holds one frame. -/
theorem history_length_lower_bound_witness :
    (run [sampleJoin]).canvasState "r" = some ⟨[emptyCanvas], 0⟩ ∧
      1 ≤ (RoomState.mk [emptyCanvas] 0).history.length :=
  ⟨by decide,
   history_length_lower_bound [sampleJoin] "r" ⟨[emptyCanvas], 0⟩ (by decide)⟩

/-! ### Characterization of the mutation handlers on a live room -/

lemma step_create (st : ServerState) (r : String) (rs : RoomState)
    (sid t : String) (ed : Element) (u : String)
    (h : st.canvasState r = some rs) :
    step st (.createElement sid r t ed u) =
      ({ st with
          canvasState := mapSet st.canvasState r
            (some (pushHistory rs (createEdit sid t ed u (currentFrame rs)))) },
       [updateAndBroadcast r
          (pushHistory rs (createEdit sid t ed u (currentFrame rs)))]) := by
  show handleEdit st r (createEdit sid t ed u) = _
  exact handleEdit_some st r (createEdit sid t ed u) rs h

lemma step_delete (st : ServerState) (r : String) (rs : RoomState)
    (sid eid : String) (h : st.canvasState r = some rs) :
    step st (.deleteElement sid r eid) =
      ({ st with
          canvasState := mapSet st.canvasState r
            (some (pushHistory rs (deleteEdit eid (currentFrame rs)))) },
       [updateAndBroadcast r
          (pushHistory rs (deleteEdit eid (currentFrame rs)))]) := by
  show handleEdit st r (deleteEdit eid) = _
  exact handleEdit_some st r (deleteEdit eid) rs h

lemma pushHistory_eq (rs : RoomState) (d : CanvasData)
    (hwf : rs.currentIndex < rs.history.length) :
    pushHistory rs d =
      ⟨rs.history.take (rs.currentIndex + 1) ++ [d], rs.currentIndex + 1⟩ := by
  unfold pushHistory
  congr 1
  simp [List.length_take]
  omega

lemma deleteEdit_of_absent (eid : String) (d : CanvasData)
    (hl : ∀ e ∈ d.lines, e.id ≠ eid)
    (hs : ∀ e ∈ d.shapes, e.id ≠ eid)
    (ht : ∀ e ∈ d.texts, e.id ≠ eid) :
    deleteEdit eid d = d := by
  unfold deleteEdit
  have h1 : d.lines.filter (fun l => l.id != eid) = d.lines :=
    List.filter_eq_self.mpr (fun a ha => by simpa using hl a ha)
  have h2 : d.shapes.filter (fun s => s.id != eid) = d.shapes :=
    List.filter_eq_self.mpr (fun a ha => by simpa using hs a ha)
  have h3 : d.texts.filter (fun t => t.id != eid) = d.texts :=
    List.filter_eq_self.mpr (fun a ha => by simpa using ht a ha)
  rw [h1, h2, h3]

/-! ### Claim C2 — delete of an unknown id -/

/-- C2, as stated, is false: deleting an id absent from the document is not
a no-op.  In room `r` holding the empty document, deleting the unknown id
`x` advances the history from 1 to 2 frames and broadcasts a state update;
a second identical delete advances it to 3 frames, so `delete(x);delete(x)`
broadcasts two state updates, not at most one. -/
theorem idempotentDelete_counterexample :
    ((run [sampleJoin, sampleDelete]).canvasState "r").map
        (fun rs => rs.history.length) = some 2 ∧
    ((run [sampleJoin, sampleDelete, sampleDelete]).canvasState "r").map
        (fun rs => rs.history.length) = some 3 ∧
    ((runEffects [sampleJoin, sampleDelete, sampleDelete]).filter
        isStateUpdate).length = 2 ∧
    ¬ (2 ≤ 1) :=
  ⟨by decide, by decide, by decide, by decide⟩

/-- C2 (amended): deleting an id absent from every collection of the
current frame still advances the history — it appends a frame equal to the
current one and moves the cursor up — and still broadcasts one state update
carrying the unchanged document; consequently `delete(id);delete(id)`
broadcasts two state updates with identical documents. -/
theorem deleteUnknown_advances (st : ServerState) (r : String)
    (rs : RoomState) (sid eid : String)
    (h : st.canvasState r = some rs)
    (hwf : rs.currentIndex < rs.history.length)
    (hl : ∀ e ∈ (currentFrame rs).lines, e.id ≠ eid)
    (hs : ∀ e ∈ (currentFrame rs).shapes, e.id ≠ eid)
    (ht : ∀ e ∈ (currentFrame rs).texts, e.id ≠ eid) :
    (stepState st (.deleteElement sid r eid)).canvasState r =
        some ⟨rs.history.take (rs.currentIndex + 1) ++ [currentFrame rs],
              rs.currentIndex + 1⟩ ∧
    stepEffects st (.deleteElement sid r eid) =
        [.stateUpdate r (currentFrame rs) true false] := by
  have hde := deleteEdit_of_absent eid (currentFrame rs) hl hs ht
  have hstep := step_delete st r rs sid eid h
  constructor
  · show (step st (.deleteElement sid r eid)).1.canvasState r = _
    rw [hstep]
    show mapSet st.canvasState r _ r = _
    rw [mapSet_self, hde, pushHistory_eq rs (currentFrame rs) hwf]
  · show (step st (.deleteElement sid r eid)).2 = _
    rw [hstep]
    show [updateAndBroadcast r _] = _
    rw [hde, updateAndBroadcast_pushHistory r rs (currentFrame rs) hwf]

/-- Witness for `deleteUnknown_advances`: deleting the unknown id `x` right
after a join appends a copy of the empty frame and broadcasts it. -/
theorem deleteUnknown_advances_witness :
    ((run [sampleJoin]).canvasState "r" = some ⟨[emptyCanvas], 0⟩) ∧
    ((RoomState.mk [emptyCanvas] 0).currentIndex <
        (RoomState.mk [emptyCanvas] 0).history.length) ∧
    (∀ e ∈ (currentFrame ⟨[emptyCanvas], 0⟩).lines, e.id ≠ "x") ∧
    (∀ e ∈ (currentFrame ⟨[emptyCanvas], 0⟩).shapes, e.id ≠ "x") ∧
    (∀ e ∈ (currentFrame ⟨[emptyCanvas], 0⟩).texts, e.id ≠ "x") ∧
    ((stepState (run [sampleJoin]) (.deleteElement "A" "r" "x")).canvasState
          "r" =
        some ⟨(RoomState.mk [emptyCanvas] 0).history.take
                ((RoomState.mk [emptyCanvas] 0).currentIndex + 1) ++
              [currentFrame ⟨[emptyCanvas], 0⟩],
              (RoomState.mk [emptyCanvas] 0).currentIndex + 1⟩ ∧
     stepEffects (run [sampleJoin]) (.deleteElement "A" "r" "x") =
        [.stateUpdate "r" (currentFrame ⟨[emptyCanvas], 0⟩) true false]) :=
  ⟨by decide, by decide, by decide, by decide, by decide,
   deleteUnknown_advances (run [sampleJoin]) "r" ⟨[emptyCanvas], 0⟩ "A" "x"
     (by decide) (by decide) (by decide) (by decide) (by decide)⟩

/-! ### Claim C3 — id and created_at assignment on create -/

lemma createEdit_line (sid : String) (ed : Element) (u : String)
    (d : CanvasData) :
    createEdit sid "line" ed u d =
      { d with lines :=
          d.lines ++ [⟨"line" ++ "-" ++ u, sid, ed.createdAt, ed.rest⟩] } := by
  rfl

lemma createEdit_shape (sid : String) (ed : Element) (u : String)
    (d : CanvasData) :
    createEdit sid "shape" ed u d =
      { d with shapes :=
          d.shapes ++ [⟨"shape" ++ "-" ++ u, sid, ed.createdAt, ed.rest⟩] } := by
  rfl

lemma createEdit_text (sid : String) (ed : Element) (u : String)
    (d : CanvasData) :
    createEdit sid "text" ed u d =
      { d with texts :=
          d.texts ++ [⟨"text" ++ "-" ++ u, sid, ed.createdAt, ed.rest⟩] } := by
  rfl

lemma create_frame_some (st : ServerState) (r : String) (rs : RoomState)
    (sid t : String) (ed : Element) (u : String)
    (h : st.canvasState r = some rs) :
    (stepState st (.createElement sid r t ed u)).canvasState r =
        some (pushHistory rs (createEdit sid t ed u (currentFrame rs))) := by
  show (step st (.createElement sid r t ed u)).1.canvasState r = _
  rw [step_create st r rs sid t ed u h]
  show mapSet st.canvasState r _ r = _
  rw [mapSet_self]

/-- C3, as stated, is false: `created_at` is not a server-assigned monotonic
counter.  Two creates in room `r` whose client payloads carry
`createdAt = 5` and then `createdAt = 3` store exactly those values, so the
stored sequence `[5, 3]` is taken from client input and is not strictly
increasing. -/
theorem createdAt_counterexample :
    ((run [sampleJoin,
           .createElement "A" "r" "line" samplePayload "u1",
           .createElement "A" "r" "line" samplePayload2 "u2"]).canvasState
        "r").map (fun rs => (currentFrame rs).lines.map
          (fun l => l.createdAt)) = some [5, 3] ∧
      ¬ ((5 : Int) < 3) :=
  ⟨by decide, by decide⟩

/-- C3 (amended): on `create_element` the server assigns the element's `id`
(as `type-uuid`) and its `userId` (the submitting socket's id); `created_at`
is not assigned by the server — it is copied unchanged from the client
payload, with no room counter and no monotonicity guarantee. -/
theorem createdAt_passthrough (st : ServerState) (r : String)
    (rs : RoomState) (sid : String) (ed : Element) (u : String)
    (h : st.canvasState r = some rs) :
    (∃ rs₁, (stepState st (.createElement sid r "line" ed u)).canvasState r =
        some rs₁ ∧
      (currentFrame rs₁).lines =
        (currentFrame rs).lines ++
          [⟨"line" ++ "-" ++ u, sid, ed.createdAt, ed.rest⟩]) ∧
    (∃ rs₂, (stepState st (.createElement sid r "shape" ed u)).canvasState r =
        some rs₂ ∧
      (currentFrame rs₂).shapes =
        (currentFrame rs).shapes ++
          [⟨"shape" ++ "-" ++ u, sid, ed.createdAt, ed.rest⟩]) ∧
    (∃ rs₃, (stepState st (.createElement sid r "text" ed u)).canvasState r =
        some rs₃ ∧
      (currentFrame rs₃).texts =
        (currentFrame rs).texts ++
          [⟨"text" ++ "-" ++ u, sid, ed.createdAt, ed.rest⟩]) := by
  refine ⟨⟨_, create_frame_some st r rs sid "line" ed u h, ?_⟩,
          ⟨_, create_frame_some st r rs sid "shape" ed u h, ?_⟩,
          ⟨_, create_frame_some st r rs sid "text" ed u h, ?_⟩⟩
  · rw [currentFrame_pushHistory, createEdit_line]
  · rw [currentFrame_pushHistory, createEdit_shape]
  · rw [currentFrame_pushHistory, createEdit_text]

/-- Witness for `createdAt_passthrough`: a create in the freshly joined
room `r` with `samplePayload` (client `createdAt = 5`). -/
theorem createdAt_passthrough_witness :
    ((run [sampleJoin]).canvasState "r" = some ⟨[emptyCanvas], 0⟩) ∧
    ((∃ rs₁, (stepState (run [sampleJoin])
          (.createElement "A" "r" "line" samplePayload "u1")).canvasState
            "r" = some rs₁ ∧
        (currentFrame rs₁).lines =
          (currentFrame ⟨[emptyCanvas], 0⟩).lines ++
            [⟨"line" ++ "-" ++ "u1", "A", samplePayload.createdAt,
              samplePayload.rest⟩]) ∧
     (∃ rs₂, (stepState (run [sampleJoin])
          (.createElement "A" "r" "shape" samplePayload "u1")).canvasState
            "r" = some rs₂ ∧
        (currentFrame rs₂).shapes =
          (currentFrame ⟨[emptyCanvas], 0⟩).shapes ++
            [⟨"shape" ++ "-" ++ "u1", "A", samplePayload.createdAt,
              samplePayload.rest⟩]) ∧
     (∃ rs₃, (stepState (run [sampleJoin])
          (.createElement "A" "r" "text" samplePayload "u1")).canvasState
            "r" = some rs₃ ∧
        (currentFrame rs₃).texts =
          (currentFrame ⟨[emptyCanvas], 0⟩).texts ++
            [⟨"text" ++ "-" ++ "u1", "A", samplePayload.createdAt,
              samplePayload.rest⟩])) :=
  ⟨by decide,
   createdAt_passthrough (run [sampleJoin]) "r" ⟨[emptyCanvas], 0⟩ "A"
     samplePayload "u1" (by decide)⟩

/-! ### Characterization of undo and redo -/

lemma step_undo_pos (st : ServerState) (r : String) (rs : RoomState)
    (sid : String) (h : st.canvasState r = some rs)
    (hg : 0 < rs.currentIndex) :
    step st (.undo sid r) =
      ({ st with
          canvasState := mapSet st.canvasState r
            (some ⟨rs.history, rs.currentIndex - 1⟩) },
       [updateAndBroadcast r ⟨rs.history, rs.currentIndex - 1⟩]) := by
  show clientUndo st r = _
  simp [clientUndo, h, hg]

lemma step_undo_zero (st : ServerState) (r : String) (rs : RoomState)
    (sid : String) (h : st.canvasState r = some rs)
    (hg : rs.currentIndex = 0) :
    step st (.undo sid r) = (st, []) := by
  show clientUndo st r = _
  simp [clientUndo, h, hg]

lemma step_redo_lt (st : ServerState) (r : String) (rs : RoomState)
    (sid : String) (h : st.canvasState r = some rs)
    (hg : rs.currentIndex < rs.history.length - 1) :
    step st (.redo sid r) =
      ({ st with
          canvasState := mapSet st.canvasState r
            (some ⟨rs.history, rs.currentIndex + 1⟩) },
       [updateAndBroadcast r ⟨rs.history, rs.currentIndex + 1⟩]) := by
  show clientRedo st r = _
  simp [clientRedo, h, hg]

lemma step_redo_ge (st : ServerState) (r : String) (rs : RoomState)
    (sid : String) (h : st.canvasState r = some rs)
    (hg : ¬ rs.currentIndex < rs.history.length - 1) :
    step st (.redo sid r) = (st, []) := by
  show clientRedo st r = _
  simp [clientRedo, h, hg]

/-! ### Claim C4 — history discipline of mutations vs undo/redo -/

/-- C4: on a room with live state `rs`, a create or delete truncates the
redo tail `history[cursor+1..]`, appends the newly computed frame and sets
the cursor to `len(history) - 1` (this is `pushHistory`); undo and redo
leave the history itself untouched. -/
theorem mutation_history_discipline (st : ServerState) (r : String)
    (rs : RoomState) (sid t : String) (ed : Element) (u eid : String)
    (h : st.canvasState r = some rs) :
    HistoryDiscipline st r rs sid t ed u eid := by
  refine ⟨create_frame_some st r rs sid t ed u h, ?_, ?_, ?_⟩
  · show (step st (.deleteElement sid r eid)).1.canvasState r = _
    rw [step_delete st r rs sid eid h]
    exact mapSet_self st.canvasState r _
  · intro rs₁ h₁
    by_cases hg : 0 < rs.currentIndex
    · have hc : (stepState st (.undo sid r)).canvasState r =
          some ⟨rs.history, rs.currentIndex - 1⟩ := by
        show (step st (.undo sid r)).1.canvasState r = _
        rw [step_undo_pos st r rs sid h hg]
        exact mapSet_self st.canvasState r _
      rw [hc] at h₁
      cases h₁
      rfl
    · have hc : (stepState st (.undo sid r)).canvasState r = some rs := by
        show (step st (.undo sid r)).1.canvasState r = _
        rw [step_undo_zero st r rs sid h (by omega)]
        exact h
      rw [hc] at h₁
      cases h₁
      rfl
  · intro rs₂ h₂
    by_cases hg : rs.currentIndex < rs.history.length - 1
    · have hc : (stepState st (.redo sid r)).canvasState r =
          some ⟨rs.history, rs.currentIndex + 1⟩ := by
        show (step st (.redo sid r)).1.canvasState r = _
        rw [step_redo_lt st r rs sid h hg]
        exact mapSet_self st.canvasState r _
      rw [hc] at h₂
      cases h₂
      rfl
    · have hc : (stepState st (.redo sid r)).canvasState r = some rs := by
        show (step st (.redo sid r)).1.canvasState r = _
        rw [step_redo_ge st r rs sid h hg]
        exact h
      rw [hc] at h₂
      cases h₂
      rfl

/-- Witness for `mutation_history_discipline` on the freshly joined room
`r`. -/
theorem mutation_history_discipline_witness :
    ((run [sampleJoin]).canvasState "r" = some ⟨[emptyCanvas], 0⟩) ∧
    HistoryDiscipline (run [sampleJoin]) "r" ⟨[emptyCanvas], 0⟩ "A" "line"
      samplePayload "u1" "x" :=
  ⟨by decide,
   mutation_history_discipline (run [sampleJoin]) "r" ⟨[emptyCanvas], 0⟩
     "A" "line" samplePayload "u1" "x" (by decide)⟩

/-! ### Claim C5 — broadcast payload -/

lemma joinCanvas_effects_shape (st : ServerState) (sid cid : String)
    (d : CanvasData) :
    ∃ d' cu' cr' us, (joinCanvas st sid cid d).2 =
      [.directUpdate sid d' cu' cr', .usersUpdate cid us] := by
  unfold joinCanvas
  exact ⟨_, _, _, _, rfl⟩

lemma payload_of_single (st : ServerState) (e : Event) (cid : String)
    (rs' : RoomState)
    (hstate : (stepState st e).canvasState cid = some rs')
    (heff : stepEffects st e = [updateAndBroadcast cid rs'])
    {r : String} {doc : CanvasData} {cu cr : Bool}
    (h : Effect.stateUpdate r doc cu cr ∈ stepEffects st e) :
    ∃ rs, (stepState st e).canvasState r = some rs ∧
      doc = currentFrame rs ∧
      cu = decide (0 < rs.currentIndex) ∧
      cr = decide (rs.currentIndex < rs.history.length - 1) := by
  rw [heff] at h
  simp only [updateAndBroadcast, List.mem_singleton,
    Effect.stateUpdate.injEq] at h
  obtain ⟨rfl, rfl, rfl, rfl⟩ := h
  exact ⟨rs', hstate, rfl, rfl, rfl⟩

/-- C5: every `server-state-update` broadcast — delivered by `io.to(room)`
as one identical payload to every member of the room, the originator
included — carries exactly the frame at the room's (new) cursor together
with `canUndo = cursor > 0` and `canRedo = cursor < len(history) - 1`. -/
theorem broadcast_payload (st : ServerState) (e : Event) (r : String)
    (doc : CanvasData) (cu cr : Bool)
    (h : Effect.stateUpdate r doc cu cr ∈ stepEffects st e) :
    ∃ rs, (stepState st e).canvasState r = some rs ∧
      doc = currentFrame rs ∧
      cu = decide (0 < rs.currentIndex) ∧
      cr = decide (rs.currentIndex < rs.history.length - 1) := by
  cases e with
  | join sid cid d =>
    obtain ⟨d', cu', cr', us, hshape⟩ := joinCanvas_effects_shape st sid cid d
    have he : stepEffects st (.join sid cid d) =
        [.directUpdate sid d' cu' cr', .usersUpdate cid us] := hshape
    rw [he] at h
    simp at h
  | createElement sid cid t ed u =>
    cases hc : st.canvasState cid with
    | none =>
      have he : stepEffects st (.createElement sid cid t ed u) = [] := by
        show (handleEdit st cid (createEdit sid t ed u)).2 = []
        simp [handleEdit, hc]
      rw [he] at h
      simp at h
    | some rs =>
      refine payload_of_single st _ cid
        (pushHistory rs (createEdit sid t ed u (currentFrame rs))) ?_ ?_ h
      · exact create_frame_some st cid rs sid t ed u hc
      · show (step st _).2 = _
        rw [step_create st cid rs sid t ed u hc]
  | deleteElement sid cid eid =>
    cases hc : st.canvasState cid with
    | none =>
      have he : stepEffects st (.deleteElement sid cid eid) = [] := by
        show (handleEdit st cid (deleteEdit eid)).2 = []
        simp [handleEdit, hc]
      rw [he] at h
      simp at h
    | some rs =>
      refine payload_of_single st _ cid
        (pushHistory rs (deleteEdit eid (currentFrame rs))) ?_ ?_ h
      · show (step st _).1.canvasState cid = _
        rw [step_delete st cid rs sid eid hc]
        exact mapSet_self st.canvasState cid _
      · show (step st _).2 = _
        rw [step_delete st cid rs sid eid hc]
  | undo sid cid =>
    cases hc : st.canvasState cid with
    | none =>
      have he : stepEffects st (.undo sid cid) = [] := by
        show (clientUndo st cid).2 = []
        simp [clientUndo, hc]
      rw [he] at h
      simp at h
    | some rs =>
      by_cases hg : 0 < rs.currentIndex
      · refine payload_of_single st _ cid
          ⟨rs.history, rs.currentIndex - 1⟩ ?_ ?_ h
        · show (step st _).1.canvasState cid = _
          rw [step_undo_pos st cid rs sid hc hg]
          exact mapSet_self st.canvasState cid _
        · show (step st _).2 = _
          rw [step_undo_pos st cid rs sid hc hg]
      · have he : stepEffects st (.undo sid cid) = [] := by
          show (step st _).2 = _
          rw [step_undo_zero st cid rs sid hc (by omega)]
        rw [he] at h
        simp at h
  | redo sid cid =>
    cases hc : st.canvasState cid with
    | none =>
      have he : stepEffects st (.redo sid cid) = [] := by
        show (clientRedo st cid).2 = []
        simp [clientRedo, hc]
      rw [he] at h
      simp at h
    | some rs =>
      by_cases hg : rs.currentIndex < rs.history.length - 1
      · refine payload_of_single st _ cid
          ⟨rs.history, rs.currentIndex + 1⟩ ?_ ?_ h
        · show (step st _).1.canvasState cid = _
          rw [step_redo_lt st cid rs sid hc hg]
          exact mapSet_self st.canvasState cid _
        · show (step st _).2 = _
          rw [step_redo_lt st cid rs sid hc hg]
      · have he : stepEffects st (.redo sid cid) = [] := by
          show (step st _).2 = _
          rw [step_redo_ge st cid rs sid hc hg]
        rw [he] at h
        simp at h

/-- Witness for `broadcast_payload`: the broadcast of a delete in the
freshly joined room `r`. -/
theorem broadcast_payload_witness :
    (Effect.stateUpdate "r" emptyCanvas true false ∈
        stepEffects (run [sampleJoin]) sampleDelete) ∧
    (∃ rs, (stepState (run [sampleJoin]) sampleDelete).canvasState "r" =
        some rs ∧
      emptyCanvas = currentFrame rs ∧
      true = decide (0 < rs.currentIndex) ∧
      false = decide (rs.currentIndex < rs.history.length - 1)) :=
  ⟨by decide,
   broadcast_payload (run [sampleJoin]) sampleDelete "r" emptyCanvas true
     false (by decide)⟩

/-! ### Claim C6 — dirty tracking and the persistence tick -/

/-- C6, as stated, is false at a concrete mutation: after socket `A` joins
room `r` and performs a create, the full emission trace of the server
contains no persistence save at all — there is no `dirty_since` marker, no
periodic tick and no write to the adapter, although the mutation itself did
emit its state-update broadcast. -/
theorem dirtyTracking_counterexample :
    ((runEffects [sampleJoin,
        .createElement "A" "r" "line" samplePayload "u1"]).filter isSave
      = []) ∧
    ((runEffects [sampleJoin,
        .createElement "A" "r" "line" samplePayload "u1"]).filter
          isStateUpdate).length = 1 :=
  ⟨by decide, by decide⟩

/-- C6 (amended): the realtime server performs no persistence work at all —
no handler ever emits a save, so the adapter never receives the mutated
document from it (document persistence in this repository is done by the
web client's debounced auto-save, outside the realtime server). -/
theorem server_never_saves (st : ServerState) (e : Event) :
    (stepEffects st e).filter isSave = [] := by
  cases e with
  | join sid cid d =>
    obtain ⟨d', cu', cr', us, hshape⟩ := joinCanvas_effects_shape st sid cid d
    show ((joinCanvas st sid cid d).2).filter isSave = []
    rw [hshape]
    simp [isSave]
  | createElement sid cid t ed u =>
    cases hc : st.canvasState cid with
    | none =>
      show ((handleEdit st cid (createEdit sid t ed u)).2).filter isSave = []
      simp [handleEdit, hc]
    | some rs =>
      show ((step st (.createElement sid cid t ed u)).2).filter isSave = []
      rw [step_create st cid rs sid t ed u hc]
      simp [updateAndBroadcast, isSave]
  | deleteElement sid cid eid =>
    cases hc : st.canvasState cid with
    | none =>
      show ((handleEdit st cid (deleteEdit eid)).2).filter isSave = []
      simp [handleEdit, hc]
    | some rs =>
      show ((step st (.deleteElement sid cid eid)).2).filter isSave = []
      rw [step_delete st cid rs sid eid hc]
      simp [updateAndBroadcast, isSave]
  | undo sid cid =>
    cases hc : st.canvasState cid with
    | none =>
      show ((clientUndo st cid).2).filter isSave = []
      simp [clientUndo, hc]
    | some rs =>
      by_cases hg : 0 < rs.currentIndex
      · show ((step st (.undo sid cid)).2).filter isSave = []
        rw [step_undo_pos st cid rs sid hc hg]
        simp [updateAndBroadcast, isSave]
      · show ((step st (.undo sid cid)).2).filter isSave = []
        rw [step_undo_zero st cid rs sid hc (by omega)]
        simp
  | redo sid cid =>
    cases hc : st.canvasState cid with
    | none =>
      show ((clientRedo st cid).2).filter isSave = []
      simp [clientRedo, hc]
    | some rs =>
      by_cases hg : rs.currentIndex < rs.history.length - 1
      · show ((step st (.redo sid cid)).2).filter isSave = []
        rw [step_redo_lt st cid rs sid hc hg]
        simp [updateAndBroadcast, isSave]
      · show ((step st (.redo sid cid)).2).filter isSave = []
        rw [step_redo_ge st cid rs sid hc hg]
        simp

/-! ### Claim C7 — mutations from non-members -/

lemma handleEdit_state_only (st st' : ServerState) (cid : String)
    (f : CanvasData → CanvasData)
    (hsame : st'.canvasState = st.canvasState) :
    (handleEdit st' cid f).1.canvasState =
        (handleEdit st cid f).1.canvasState ∧
    (handleEdit st' cid f).2 = (handleEdit st cid f).2 := by
  cases hc : st.canvasState cid with
  | none =>
    have hc' : st'.canvasState cid = none := by rw [hsame]; exact hc
    constructor
    · simp [handleEdit, hc, hc', hsame]
    · simp [handleEdit, hc, hc']
  | some rs =>
    have hc' : st'.canvasState cid = some rs := by rw [hsame]; exact hc
    rw [handleEdit_some st cid f rs hc, handleEdit_some st' cid f rs hc']
    constructor
    · show mapSet st'.canvasState cid _ = mapSet st.canvasState cid _
      rw [hsame]
    · rfl

lemma clientUndo_state_only (st st' : ServerState) (cid : String)
    (hsame : st'.canvasState = st.canvasState) :
    (clientUndo st' cid).1.canvasState =
        (clientUndo st cid).1.canvasState ∧
    (clientUndo st' cid).2 = (clientUndo st cid).2 := by
  cases hc : st.canvasState cid with
  | none =>
    have hc' : st'.canvasState cid = none := by rw [hsame]; exact hc
    constructor
    · simp [clientUndo, hc, hc', hsame]
    · simp [clientUndo, hc, hc']
  | some rs =>
    have hc' : st'.canvasState cid = some rs := by rw [hsame]; exact hc
    by_cases hg : 0 < rs.currentIndex
    · constructor
      · simp [clientUndo, hc, hc', hg, hsame]
      · simp [clientUndo, hc, hc', hg]
    · constructor
      · simp [clientUndo, hc, hc', hg, hsame]
      · simp [clientUndo, hc, hc', hg]

lemma clientRedo_state_only (st st' : ServerState) (cid : String)
    (hsame : st'.canvasState = st.canvasState) :
    (clientRedo st' cid).1.canvasState =
        (clientRedo st cid).1.canvasState ∧
    (clientRedo st' cid).2 = (clientRedo st cid).2 := by
  cases hc : st.canvasState cid with
  | none =>
    have hc' : st'.canvasState cid = none := by rw [hsame]; exact hc
    constructor
    · simp [clientRedo, hc, hc', hsame]
    · simp [clientRedo, hc, hc']
  | some rs =>
    have hc' : st'.canvasState cid = some rs := by rw [hsame]; exact hc
    by_cases hg : rs.currentIndex < rs.history.length - 1
    · constructor
      · simp [clientRedo, hc, hc', hg, hsame]
      · simp [clientRedo, hc, hc', hg]
    · constructor
      · simp [clientRedo, hc, hc', hg, hsame]
      · simp [clientRedo, hc, hc', hg]

/-- C7, as stated, is false: the server never checks membership.  With room
`r` live (sole member `A`), socket `B` — a member of nothing — sends a
delete naming `r`: the room's history advances from 1 to 2 frames and a
broadcast is emitted, instead of the message being dropped. -/
theorem notMember_counterexample :
    ((run [sampleJoin]).canvasUsers "r" = some ["A"]) ∧
    ("B" ∉ (["A"] : List String)) ∧
    ((run [sampleJoin]).currentCanvas "B" = none) ∧
    (((stepState (run [sampleJoin])
          (.deleteElement "B" "r" "x")).canvasState "r").map
        (fun rs => rs.history.length) = some 2) ∧
    stepEffects (run [sampleJoin]) (.deleteElement "B" "r" "x") ≠ [] :=
  ⟨by decide, by decide, by decide, by decide, by decide⟩

/-- C7 (amended): a mutation message is dropped silently exactly when the
room it names has no live state; the sender's membership is never
consulted — the mutation's outcome (room states and emissions) depends only
on `canvasState`, so a non-member's mutation on a live room is applied and
broadcast like any other. -/
theorem mutation_ignores_membership (st st' : ServerState) (e : Event)
    (cid : String) (hm : mutationOf e = some cid)
    (hsame : st'.canvasState = st.canvasState) :
    (st.canvasState cid = none →
        stepState st e = st ∧ stepEffects st e = []) ∧
    (stepState st' e).canvasState = (stepState st e).canvasState ∧
    stepEffects st' e = stepEffects st e := by
  cases e with
  | join sid cid' d => simp [mutationOf] at hm
  | createElement sid cid' t ed u =>
    have hcid : cid' = cid := by simpa [mutationOf] using hm
    subst hcid
    refine ⟨fun hn => ⟨?_, ?_⟩, (handleEdit_state_only st st' cid' _ hsame).1,
      (handleEdit_state_only st st' cid' _ hsame).2⟩
    · show (handleEdit st cid' (createEdit sid t ed u)).1 = st
      simp [handleEdit, hn]
    · show (handleEdit st cid' (createEdit sid t ed u)).2 = []
      simp [handleEdit, hn]
  | deleteElement sid cid' eid =>
    have hcid : cid' = cid := by simpa [mutationOf] using hm
    subst hcid
    refine ⟨fun hn => ⟨?_, ?_⟩, (handleEdit_state_only st st' cid' _ hsame).1,
      (handleEdit_state_only st st' cid' _ hsame).2⟩
    · show (handleEdit st cid' (deleteEdit eid)).1 = st
      simp [handleEdit, hn]
    · show (handleEdit st cid' (deleteEdit eid)).2 = []
      simp [handleEdit, hn]
  | undo sid cid' =>
    have hcid : cid' = cid := by simpa [mutationOf] using hm
    subst hcid
    refine ⟨fun hn => ⟨?_, ?_⟩, (clientUndo_state_only st st' cid' hsame).1,
      (clientUndo_state_only st st' cid' hsame).2⟩
    · show (clientUndo st cid').1 = st
      simp [clientUndo, hn]
    · show (clientUndo st cid').2 = []
      simp [clientUndo, hn]
  | redo sid cid' =>
    have hcid : cid' = cid := by simpa [mutationOf] using hm
    subst hcid
    refine ⟨fun hn => ⟨?_, ?_⟩, (clientRedo_state_only st st' cid' hsame).1,
      (clientRedo_state_only st st' cid' hsame).2⟩
    · show (clientRedo st cid').1 = st
      simp [clientRedo, hn]
    · show (clientRedo st cid').2 = []
      simp [clientRedo, hn]

/-- Witness for `mutation_ignores_membership`: socket `B`, stripped of all
membership data (`st'` wipes `canvasUsers` and `currentCanvas`), obtains
exactly the same mutation outcome on room `r` as the state where `A` is the
sole member. -/
theorem mutation_ignores_membership_witness :
    (mutationOf (.deleteElement "B" "r" "x") = some "r") ∧
    ((ServerState.mk (run [sampleJoin]).canvasState (fun _ => none)
        (fun _ => none)).canvasState = (run [sampleJoin]).canvasState) ∧
    (((run [sampleJoin]).canvasState "r" = none →
        stepState (run [sampleJoin]) (.deleteElement "B" "r" "x") =
            run [sampleJoin] ∧
        stepEffects (run [sampleJoin]) (.deleteElement "B" "r" "x") = []) ∧
     (stepState (ServerState.mk (run [sampleJoin]).canvasState
          (fun _ => none) (fun _ => none))
        (.deleteElement "B" "r" "x")).canvasState =
        (stepState (run [sampleJoin])
          (.deleteElement "B" "r" "x")).canvasState ∧
     stepEffects (ServerState.mk (run [sampleJoin]).canvasState
          (fun _ => none) (fun _ => none)) (.deleteElement "B" "r" "x") =
        stepEffects (run [sampleJoin]) (.deleteElement "B" "r" "x")) :=
  ⟨by decide, rfl,
   mutation_ignores_membership (run [sampleJoin])
     (ServerState.mk (run [sampleJoin]).canvasState (fun _ => none)
       (fun _ => none))
     (.deleteElement "B" "r" "x") "r" (by decide) rfl⟩

/-! ### Claim C8 — undo/redo boundary behaviour -/

/-- C8: undo decrements the cursor by one exactly when `cursor > 0` and
redo increments it by one exactly when `cursor < len(history) - 1`, each
followed by one state-update broadcast; at the boundary the server state is
unchanged and nothing is emitted. -/
theorem undo_redo_boundary (st : ServerState) (sid r : String)
    (rs : RoomState) (h : st.canvasState r = some rs) :
    UndoRedoBoundary st sid r rs := by
  refine ⟨?_, ?_, ?_, ?_⟩
  · intro hg
    constructor
    · show (step st (.undo sid r)).1.canvasState r = _
      rw [step_undo_pos st r rs sid h hg]
      exact mapSet_self st.canvasState r _
    · show (step st (.undo sid r)).2 = _
      rw [step_undo_pos st r rs sid h hg]
  · intro hz
    constructor
    · show (step st (.undo sid r)).1 = st
      rw [step_undo_zero st r rs sid h hz]
    · show (step st (.undo sid r)).2 = []
      rw [step_undo_zero st r rs sid h hz]
  · intro hg
    constructor
    · show (step st (.redo sid r)).1.canvasState r = _
      rw [step_redo_lt st r rs sid h hg]
      exact mapSet_self st.canvasState r _
    · show (step st (.redo sid r)).2 = _
      rw [step_redo_lt st r rs sid h hg]
  · intro hg
    constructor
    · show (step st (.redo sid r)).1 = st
      rw [step_redo_ge st r rs sid h hg]
    · show (step st (.redo sid r)).2 = []
      rw [step_redo_ge st r rs sid h hg]

/-- Witness for `undo_redo_boundary` in room `r` after one mutation: the
cursor sits at 1 of 2 frames, so undo applies and redo is at its
boundary. -/
theorem undo_redo_boundary_witness :
    ((run [sampleJoin, sampleDelete]).canvasState "r" =
        some ⟨[emptyCanvas, emptyCanvas], 1⟩) ∧
    UndoRedoBoundary (run [sampleJoin, sampleDelete]) "A" "r"
      ⟨[emptyCanvas, emptyCanvas], 1⟩ :=
  ⟨by decide,
   undo_redo_boundary (run [sampleJoin, sampleDelete]) "A" "r"
     ⟨[emptyCanvas, emptyCanvas], 1⟩ (by decide)⟩

/-! ### Claim C9 — server override of id and userId -/

lemma mem_createEdit (sid t : String) (ed : Element) (u : String)
    (d : CanvasData) (e : Element)
    (he : e ∈ (createEdit sid t ed u d).lines ∨
          e ∈ (createEdit sid t ed u d).shapes ∨
          e ∈ (createEdit sid t ed u d).texts) :
    (e ∈ d.lines ∨ e ∈ d.shapes ∨ e ∈ d.texts) ∨
      e = ⟨t ++ "-" ++ u, sid, ed.createdAt, ed.rest⟩ := by
  by_cases h1 : t = "line"
  · subst h1
    rw [createEdit_line] at he
    simp only [List.mem_append, List.mem_singleton] at he
    tauto
  · by_cases h2 : t = "shape"
    · subst h2
      rw [createEdit_shape] at he
      simp only [List.mem_append, List.mem_singleton] at he
      tauto
    · by_cases h3 : t = "text"
      · subst h3
        rw [createEdit_text] at he
        simp only [List.mem_append, List.mem_singleton] at he
        tauto
      · have hid : createEdit sid t ed u d = d := by
          unfold createEdit
          simp [h1, h2, h3]
        rw [hid] at he
        exact Or.inl he

/-- C9: whatever `id` or `userId` the client put into the payload, every
element of the frame produced by a create that was not already present is
the server-built one: its `id` is the fresh `type-uuid` string and its
`userId` is the submitting socket's id. -/
theorem create_overrides_identity (st : ServerState) (r : String)
    (rs : RoomState) (sid t : String) (ed : Element) (u : String)
    (h : st.canvasState r = some rs) :
    ∃ rs', (stepState st (.createElement sid r t ed u)).canvasState r =
        some rs' ∧
      ∀ e : Element,
        (e ∈ (currentFrame rs').lines ∨ e ∈ (currentFrame rs').shapes ∨
         e ∈ (currentFrame rs').texts) →
        (e ∈ (currentFrame rs).lines ∨ e ∈ (currentFrame rs).shapes ∨
         e ∈ (currentFrame rs).texts) ∨
        (e.id = t ++ "-" ++ u ∧ e.userId = sid) := by
  refine ⟨_, create_frame_some st r rs sid t ed u h, ?_⟩
  rw [currentFrame_pushHistory]
  intro e he
  rcases mem_createEdit sid t ed u (currentFrame rs) e he with hm | hm
  · exact Or.inl hm
  · right
    rw [hm]
    exact ⟨rfl, rfl⟩

/-- Witness for `create_overrides_identity`: a create with a payload whose
client-chosen `id`/`userId` fields are discarded. -/
theorem create_overrides_identity_witness :
    ((run [sampleJoin]).canvasState "r" = some ⟨[emptyCanvas], 0⟩) ∧
    (∃ rs', (stepState (run [sampleJoin])
          (.createElement "A" "r" "line" samplePayload "u1")).canvasState
            "r" = some rs' ∧
      ∀ e : Element,
        (e ∈ (currentFrame rs').lines ∨ e ∈ (currentFrame rs').shapes ∨
         e ∈ (currentFrame rs').texts) →
        (e ∈ (currentFrame ⟨[emptyCanvas], 0⟩).lines ∨
         e ∈ (currentFrame ⟨[emptyCanvas], 0⟩).shapes ∨
         e ∈ (currentFrame ⟨[emptyCanvas], 0⟩).texts) ∨
        (e.id = "line" ++ "-" ++ "u1" ∧ e.userId = "A")) :=
  ⟨by decide,
   create_overrides_identity (run [sampleJoin]) "r" ⟨[emptyCanvas], 0⟩ "A"
     "line" samplePayload "u1" (by decide)⟩

/-! ### Claim C10 — create with an unknown type tag -/

/-- C10: a create whose type tag is none of `line`, `shape`, `text`, sent
to a room with live state, still appends a frame equal to the current one
and broadcasts a state update with `canUndo = true` and `canRedo = false`:
the history advances although the visible document is unchanged. -/
theorem unknown_type_advances (st : ServerState) (r : String)
    (rs : RoomState) (sid t : String) (ed : Element) (u : String)
    (h : st.canvasState r = some rs)
    (hwf : rs.currentIndex < rs.history.length)
    (h1 : t ≠ "line") (h2 : t ≠ "shape") (h3 : t ≠ "text") :
    (stepState st (.createElement sid r t ed u)).canvasState r =
        some ⟨rs.history.take (rs.currentIndex + 1) ++ [currentFrame rs],
              rs.currentIndex + 1⟩ ∧
    stepEffects st (.createElement sid r t ed u) =
        [.stateUpdate r (currentFrame rs) true false] := by
  have hce : createEdit sid t ed u (currentFrame rs) = currentFrame rs := by
    unfold createEdit
    simp [h1, h2, h3]
  constructor
  · have hc := create_frame_some st r rs sid t ed u h
    rw [hce] at hc
    rw [hc, pushHistory_eq rs (currentFrame rs) hwf]
  · show (step st (.createElement sid r t ed u)).2 = _
    rw [step_create st r rs sid t ed u h]
    rw [hce, updateAndBroadcast_pushHistory r rs (currentFrame rs) hwf]

/-- Witness for `unknown_type_advances`: a create with type tag `bogus` in
the freshly joined room `r`. -/
theorem unknown_type_advances_witness :
    ((run [sampleJoin]).canvasState "r" = some ⟨[emptyCanvas], 0⟩) ∧
    ((RoomState.mk [emptyCanvas] 0).currentIndex <
        (RoomState.mk [emptyCanvas] 0).history.length) ∧
    ("bogus" ≠ "line") ∧ ("bogus" ≠ "shape") ∧ ("bogus" ≠ "text") ∧
    ((stepState (run [sampleJoin])
          (.createElement "A" "r" "bogus" samplePayload "u1")).canvasState
            "r" =
        some ⟨(RoomState.mk [emptyCanvas] 0).history.take
                ((RoomState.mk [emptyCanvas] 0).currentIndex + 1) ++
              [currentFrame ⟨[emptyCanvas], 0⟩],
              (RoomState.mk [emptyCanvas] 0).currentIndex + 1⟩ ∧
     stepEffects (run [sampleJoin])
          (.createElement "A" "r" "bogus" samplePayload "u1") =
        [.stateUpdate "r" (currentFrame ⟨[emptyCanvas], 0⟩) true false]) :=
  ⟨by decide, by decide, by decide, by decide, by decide,
   unknown_type_advances (run [sampleJoin]) "r" ⟨[emptyCanvas], 0⟩ "A"
     "bogus" samplePayload "u1" (by decide) (by decide) (by decide)
     (by decide) (by decide)⟩
